import Mathlib

/-!
Verification of the order ingestion and merge pipeline of the
Auth0 pizza-ordering sample server (`02-Calling-an-API/server.js` and its
documented variant).

The embedding models the two protected handlers:

* `createOrder` — the POST `/api/orders` handler: the claim-validation
  chain, record construction, and the append to the in-memory
  `ordersByUser` cache.
* `listOrders` — the GET `/api/orders` handler: local-record
  normalization, best-effort mirrored fetch (whose own failures the
  inner `try/catch` swallows, while a malformed delivered
  `order_history` throws in the merge loop outside it and surfaces as
  HTTP 500), merge with de-duplication by `id`, descending sort by
  `created_at`, empty-items filtering, and `order_number` assignment.

Modelling conventions:

* JavaScript values that may be `undefined` are `Option _`; JS falsiness
  of strings (empty string is falsy) is modelled explicitly.
* Timestamps (`created_at`, produced as ISO-8601 strings and compared via
  `new Date(...)`) are embedded as their integer time values, which are
  order-isomorphic to the parseable ISO strings the code produces.
* `Array.prototype.sort` (required stable by the ECMAScript spec) is
  embedded as `List.mergeSort`, a stable sort.
* The fields the environment supplies at creation time (the freshly
  generated id, the current instant, its locale-formatted date/time
  strings, the epoch-seconds clock) are explicit parameters.
-/

/-- One item of an order: `{ name, quantity }`. -/
structure Item where
  name : String
  quantity : Int
deriving DecidableEq

/-- A locally stored order record, as built by the POST handler
(`orderRecord` in the source). Its `items` field is always an array. -/
structure OrderRecord where
  id : String
  created_at : Int
  date : String
  time : String
  items : List Item
deriving DecidableEq

/-- The decoded access-token payload (`req.auth?.payload`): `sub`, `exp`,
`permissions` (destructured with default `[]`), and the namespaced
`email_verified` custom claim.  `none` models an absent (`undefined`)
field; for `email_verified`, `none` also covers any non-boolean value,
which the `!== true` check treats the same way. -/
structure Payload where
  sub : Option String
  exp : Option Int
  permissions : Option (List String)
  email_verified : Option Bool
deriving DecidableEq

/-- The request body's `order` object; `items` is `some _` exactly when
the field is present and is an array. -/
structure OrderBody where
  items : Option (List Item)
deriving DecidableEq

/-- A mirrored entry read back from the profile store
(`user_metadata.order_history`): loosely typed, every field may be
missing, and the identifier may live in `id` or `order_id`. -/
structure MirroredEntry where
  id : Option String
  order_id : Option String
  created_at : Int
  date : Option String
  time : Option String
  items : Option (List Item)
deriving DecidableEq

/-- A record in the merged working list of the GET handler: the common
shape that both normalized local records and normalized mirrored entries
are mapped into. -/
structure MergedOrder where
  id : Option String
  created_at : Int
  date : Option String
  time : Option String
  items : Option (List Item)
deriving DecidableEq

/-- An element of the GET handler's response array: a merged record
together with its display `order_number`. -/
structure DisplayOrder where
  order : MergedOrder
  order_number : Nat
deriving DecidableEq

/-- An HTTP error response: `res.status(status).json({ message })`. -/
structure ApiError where
  status : Nat
  message : String
deriving DecidableEq

def errMissingToken : ApiError := ⟨401, "Invalid or missing access token"⟩

def errMissingSub : ApiError := ⟨401, "Token missing subject (sub)"⟩

def errExpired : ApiError := ⟨401, "Access token has expired"⟩

def errNoPermission : ApiError := ⟨403, "Missing create:orders permission"⟩

def errEmailNotVerified : ApiError := ⟨403, "Email must be verified before placing an order."⟩

def errBadItems : ApiError := ⟨400, "Order must include an items array"⟩

def errMissingUserId : ApiError := ⟨400, "Missing user identifier in token"⟩

/-- JS `a < n` where `a` may be `undefined`: comparing `undefined` with a
number yields `NaN` on the left, so the comparison is `false`. -/
def jsLt : Option Int → Int → Bool
  | some v, n => decide (v < n)
  | none, _ => false

/-- JS `a || b` on the identifier fields: a present non-empty string is
truthy and wins; `undefined` or the empty string falls through to `b`. -/
def jsOrId : Option String → Option String → Option String
  | some s, b => if s = "" then b else some s
  | none, b => b

/-- The process-lifetime `ordersByUser` cache, as a total map from
subject to record list (`ordersByUser[sub] || []` reads a missing key as
`[]`, so the empty list faithfully models an absent key). -/
def OrdersByUser : Type := String → List OrderRecord

/-- The POST `/api/orders` handler.  Arguments beyond the payload and
body are the environment-supplied values: `nowEpoch` is
`Math.floor(Date.now() / 1000)`, `freshId` the generated id, `nowInstant`
the creation instant (`created_at`), `dateStr`/`timeStr` its
locale-formatted renderings, and `ordersByUser` the cache before the
call.  Returns the response and the cache after the call. -/
def createOrder (payload : Option Payload) (order : Option OrderBody)
    (nowEpoch : Int) (freshId : String) (nowInstant : Int)
    (dateStr timeStr : String) (ordersByUser : OrdersByUser) :
    Except ApiError OrderRecord × OrdersByUser :=
  match payload with
  | none => (.error errMissingToken, ordersByUser)
  | some p =>
    match p.sub with
    | none => (.error errMissingSub, ordersByUser)
    | some sub =>
      if sub = "" then (.error errMissingSub, ordersByUser)
      else if jsLt p.exp nowEpoch then (.error errExpired, ordersByUser)
      else if !((p.permissions.getD []).contains "create:orders") then
        (.error errNoPermission, ordersByUser)
      else if !(decide (p.email_verified = some true)) then
        (.error errEmailNotVerified, ordersByUser)
      else
        match order with
        | none => (.error errBadItems, ordersByUser)
        | some ob =>
          match ob.items with
          | none => (.error errBadItems, ordersByUser)
          | some items =>
            let orderRecord : OrderRecord :=
              ⟨freshId, nowInstant, dateStr, timeStr, items⟩
            (.ok orderRecord,
             fun s => if s = sub then ordersByUser s ++ [orderRecord]
                      else ordersByUser s)

/-- Normalization of a local record into the merged working shape
(the `localOrders` mapping step of the GET handler). -/
def localToMerged (r : OrderRecord) : MergedOrder :=
  ⟨some r.id, r.created_at, some r.date, some r.time, some r.items⟩

/-- Normalization of a mirrored entry (`normalizedOrder` in the source):
the identifier is `order.id || order.order_id`. -/
def normalizedOrder (o : MirroredEntry) : MergedOrder :=
  ⟨jsOrId o.id o.order_id, o.created_at, o.date, o.time, o.items⟩

/-- The merge loop: start from the local records, walk the mirrored
entries in order, and push a normalized entry only when no record with
the same `id` is already present. -/
def mergedOrders (localOrders : List MergedOrder)
    (auth0Orders : List MirroredEntry) : List MergedOrder :=
  auth0Orders.foldl
    (fun acc o =>
      let n := normalizedOrder o
      if acc.any (fun m => decide (m.id = n.id)) then acc else acc ++ [n])
    localOrders

/-- The comparator of `mergedOrders.sort((a, b) => new Date(b.created_at)
- new Date(a.created_at))`: `a` may precede `b` exactly when
`b.created_at ≤ a.created_at` (descending). -/
def descLE (a b : MergedOrder) : Bool := decide (b.created_at ≤ a.created_at)

/-- The descending stable sort of the merged list. -/
def sortedOrders (l : List MergedOrder) : List MergedOrder :=
  l.mergeSort descLE

/-- The filter predicate: `order.items && Array.isArray(order.items) &&
order.items.length > 0`. -/
def hasItems (o : MergedOrder) : Bool :=
  match o.items with
  | some items => decide (0 < items.length)
  | none => false

/-- Drop merged records without a non-empty items array. -/
def filteredOrders (l : List MergedOrder) : List MergedOrder :=
  l.filter hasItems

/-- `order_number` assignment: reverse to oldest-first, number `1..N` by
position, reverse back to newest-first. -/
def ordersWithNumbers (l : List MergedOrder) : List DisplayOrder :=
  (l.reverse.enum.map (fun p => ⟨p.2, p.1 + 1⟩)).reverse

/-- The sort → filter → number tail of the GET handler, from the merged
working list to the response array. -/
def displayPipeline (m : List MergedOrder) : List DisplayOrder :=
  ordersWithNumbers (filteredOrders (sortedOrders m))

/-- The `user_metadata.order_history` value of a delivered 200 response,
as the loosely typed JS value the handler actually receives:
`absent` is an absent or falsy field (defaulted to `[]` by `|| []`);
`array l` is an array whose `none` elements are `null`/`undefined`
entries (reading `.id` on them throws); `nonArray` is any truthy
non-array value (calling `.forEach` on it throws). -/
inductive OrderHistoryVal where
  | absent
  | array (l : List (Option MirroredEntry))
  | nonArray
deriving DecidableEq

/-- The outer catch of the GET handler:
`res.status(500).json({ message: err.message })`.  The thrown
`TypeError`'s runtime text is not modelled; the embedding uses a fixed
placeholder message. -/
def errInternalMirror : ApiError := ⟨500, "TypeError"⟩

/-- The GET `/api/orders` handler.  `mirror` is the outcome of the
profile-store fetch: `.error` is a rejected token exchange or GET —
exactly what the inner `try/catch` covers, leaving `auth0Orders = []` —
while `.ok` carries the delivered `order_history` value.  The merge loop
runs OUTSIDE that inner catch: a truthy non-array `order_history`, or an
array containing a `null`/`undefined` entry, throws during
`auth0Orders.forEach` and lands in the outer catch, which surfaces
HTTP 500. -/
def listOrders (payload : Option Payload) (ordersByUser : OrdersByUser)
    (mirror : Except String OrderHistoryVal) :
    Except ApiError (List DisplayOrder) :=
  match payload.bind (·.sub) with
  | none => .error errMissingUserId
  | some userId =>
    if userId = "" then .error errMissingUserId
    else
      let localOrders := (ordersByUser userId).map localToMerged
      let histVal := match mirror with | .ok v => v | .error _ => .absent
      match histVal with
      | .nonArray => .error errInternalMirror
      | .absent => .ok (displayPipeline (mergedOrders localOrders []))
      | .array l =>
        if none ∈ l then .error errInternalMirror
        else .ok (displayPipeline (mergedOrders localOrders (l.filterMap id)))

/-- First-failure semantics used to state the validation order: scan the
checks in order and return the error of the first failing one. -/
def firstFailing : List (Bool × ApiError) → Option ApiError
  | [] => none
  | (ok, e) :: rest => if ok then firstFailing rest else some e

/-- Check 1: the decoded payload is present. -/
def claimsPresentC (payload : Option Payload) : Bool := payload.isSome

/-- Check 2: the subject claim is present and non-empty.  (Recorded as
passing when the payload itself is absent; `firstFailing` never reaches
it in that case.) -/
def subjectOkC (payload : Option Payload) : Bool :=
  match payload with
  | none => true
  | some p =>
    match p.sub with
    | some s => decide (s ≠ "")
    | none => false

/-- Check 3: the expiry comparison `exp < nowEpoch` does not fire. -/
def notExpiredC (payload : Option Payload) (nowEpoch : Int) : Bool :=
  match payload with
  | none => true
  | some p => !(jsLt p.exp nowEpoch)

/-- Check 4: the `create:orders` capability is in `permissions`. -/
def permissionOkC (payload : Option Payload) : Bool :=
  match payload with
  | none => true
  | some p => (p.permissions.getD []).contains "create:orders"

/-- Check 5: the verified-email claim is exactly boolean `true`. -/
def emailOkC (payload : Option Payload) : Bool :=
  match payload with
  | none => true
  | some p => decide (p.email_verified = some true)

/-- Check 6: the body carries an `order` whose `items` is an array. -/
def itemsArrayC (order : Option OrderBody) : Bool :=
  match order with
  | some ob => ob.items.isSome
  | none => false

/-- The validation sequence of the POST handler, in source order, paired
with the error each failing check produces. -/
def validationSequence (payload : Option Payload) (order : Option OrderBody)
    (nowEpoch : Int) : List (Bool × ApiError) :=
  [(claimsPresentC payload, errMissingToken),
   (subjectOkC payload, errMissingSub),
   (notExpiredC payload nowEpoch, errExpired),
   (permissionOkC payload, errNoPermission),
   (emailOkC payload, errEmailNotVerified),
   (itemsArrayC order, errBadItems)]

/-- Validation spec of the POST handler: its result is the error of the
earliest failing check of `validationSequence`, or the constructed
record when every check passes. -/
theorem createOrder_validation_spec
    (payload : Option Payload) (order : Option OrderBody)
    (nowEpoch : Int) (freshId : String) (nowInstant : Int)
    (dateStr timeStr : String) (cache : OrdersByUser) :
    (createOrder payload order nowEpoch freshId nowInstant dateStr timeStr cache).1 =
      match firstFailing (validationSequence payload order nowEpoch) with
      | some e => Except.error e
      | none => Except.ok ⟨freshId, nowInstant, dateStr, timeStr,
          (order.bind (·.items)).getD []⟩ := by
  cases payload with
  | none => rfl
  | some p =>
    cases hs : p.sub with
    | none =>
      simp [createOrder, validationSequence, firstFailing, claimsPresentC,
        subjectOkC, hs]
    | some sub =>
      cases order with
      | none =>
        simp only [createOrder, validationSequence, firstFailing,
          claimsPresentC, subjectOkC, notExpiredC, permissionOkC, emailOkC,
          itemsArrayC, hs, Option.isSome_some, Option.bind_none]
        split_ifs <;> simp_all
      | some ob =>
        cases hi : ob.items with
        | none =>
          simp only [createOrder, validationSequence, firstFailing,
            claimsPresentC, subjectOkC, notExpiredC, permissionOkC, emailOkC,
            itemsArrayC, hs, hi, Option.isSome_some, Option.isSome_none,
            Option.bind_some]
          split_ifs <;> simp_all
        | some items =>
          simp only [createOrder, validationSequence, firstFailing,
            claimsPresentC, subjectOkC, notExpiredC, permissionOkC, emailOkC,
            itemsArrayC, hs, hi, Option.isSome_some, Option.bind_some]
          split_ifs <;> simp_all

/-- C4: `createOrder` validates fail-fast in source order — claims
present, subject non-empty, expiry, create-capability, verified email,
items array — and on any input its result is the error of the earliest
failing check (or the constructed record when every check passes). -/
theorem createOrder_first_failure
    (payload : Option Payload) (order : Option OrderBody)
    (nowEpoch : Int) (freshId : String) (nowInstant : Int)
    (dateStr timeStr : String) (cache : OrdersByUser) :
    (createOrder payload order nowEpoch freshId nowInstant dateStr timeStr cache).1 =
      match firstFailing (validationSequence payload order nowEpoch) with
      | some e => Except.error e
      | none => Except.ok ⟨freshId, nowInstant, dateStr, timeStr,
          (order.bind (·.items)).getD []⟩ :=
  createOrder_validation_spec payload order nowEpoch freshId nowInstant
    dateStr timeStr cache

/-- C5 counterexample: a token whose `exp` exactly equals the current
epoch second is NOT rejected — the handler compares `exp < nowEpoch`, so
with `exp = nowEpoch = 100` and otherwise-valid claims and payload the
order is created, contradicting the claim that expiry ≤ now fails with
TokenExpired. -/
theorem createOrder_expiry_equal_now_not_rejected :
    (100 : Int) ≤ 100 ∧
    (createOrder (some ⟨some "u1", some 100, some ["create:orders"], some true⟩)
        (some ⟨some [⟨"Margherita", 2⟩]⟩) 100 "id1" 5000 "d" "t"
        (fun _ => [])).1
      = Except.ok ⟨"id1", 5000, "d", "t", [⟨"Margherita", 2⟩]⟩ := by
  exact ⟨le_refl _, rfl⟩

/-- C5 (amended): for a present payload with a non-empty subject,
`createOrder` fails with the token-expired error exactly when the expiry
claim is present and strictly less than the current epoch time; in
particular an expiry equal to the current time passes the expiry check. -/
theorem createOrder_tokenExpired_iff (p : Payload) (order : Option OrderBody)
    (nowEpoch : Int) (freshId : String) (nowInstant : Int)
    (dateStr timeStr : String) (cache : OrdersByUser)
    (hsub : subjectOkC (some p) = true) :
    ((createOrder (some p) order nowEpoch freshId nowInstant dateStr timeStr
        cache).1 = .error errExpired)
      ↔ ∃ e, p.exp = some e ∧ e < nowEpoch := by
  rw [createOrder_validation_spec]
  simp only [validationSequence, firstFailing, claimsPresentC,
    Option.isSome_some, if_true, hsub]
  cases he : p.exp with
  | none =>
    simp only [notExpiredC, jsLt, he, Bool.not_false, if_true]
    split_ifs <;>
      simp_all [errExpired, errNoPermission, errEmailNotVerified, errBadItems,
        itemsArrayC]
  | some e =>
    by_cases hlt : e < nowEpoch
    · simp only [notExpiredC, jsLt, he, decide_eq_true hlt, Bool.not_true,
        Bool.false_eq_true, if_false]
      constructor
      · intro _
        exact ⟨e, rfl, hlt⟩
      · intro _
        trivial
    · have : decide (e < nowEpoch) = false := by simpa using hlt
      simp only [notExpiredC, jsLt, he, this, Bool.not_false, if_true]
      split_ifs <;>
        simp_all [errExpired, errNoPermission, errEmailNotVerified,
          errBadItems, itemsArrayC]

/-- C5 witness: a payload with subject `u1` and `exp = 50` against
current time 100 is rejected as expired. -/
theorem createOrder_tokenExpired_iff_witness :
    subjectOkC (some ⟨some "u1", some 50, some [], none⟩) = true ∧
    (createOrder (some ⟨some "u1", some 50, some [], none⟩) none 100 "i" 0
        "d" "t" (fun _ => [])).1 = .error errExpired :=
  ⟨by decide,
   (createOrder_tokenExpired_iff ⟨some "u1", some 50, some [], none⟩ none 100
      "i" 0 "d" "t" (fun _ => []) (by decide)).mpr ⟨50, rfl, by decide⟩⟩

/-- C7: whenever `createOrder` rejects, the `ordersByUser` cache after
the call is exactly the cache before it. -/
theorem createOrder_error_preserves_cache
    (payload : Option Payload) (order : Option OrderBody)
    (nowEpoch : Int) (freshId : String) (nowInstant : Int)
    (dateStr timeStr : String) (cache : OrdersByUser) (e : ApiError)
    (h : (createOrder payload order nowEpoch freshId nowInstant dateStr
        timeStr cache).1 = .error e) :
    (createOrder payload order nowEpoch freshId nowInstant dateStr timeStr
        cache).2 = cache := by
  cases payload with
  | none => rfl
  | some p =>
    cases hs : p.sub with
    | none => simp [createOrder, hs]
    | some sub =>
      cases order with
      | none =>
        simp only [createOrder, hs]
        split_ifs <;> rfl
      | some ob =>
        cases hi : ob.items with
        | none =>
          simp only [createOrder, hs, hi]
          split_ifs <;> rfl
        | some items =>
          simp only [createOrder, hs, hi] at h ⊢
          split_ifs at h ⊢ <;> rfl

/-- C7 witness: a call with no token leaves the (empty) cache intact. -/
theorem createOrder_error_preserves_cache_witness :
    (createOrder none none 0 "i" 0 "d" "t" (fun _ => [])).1
        = .error errMissingToken
    ∧ (createOrder none none 0 "i" 0 "d" "t" (fun _ => [])).2
        = (fun _ => []) :=
  ⟨rfl, createOrder_error_preserves_cache none none 0 "i" 0 "d" "t"
    (fun _ => []) errMissingToken rfl⟩

/-- C9: a successful `createOrder` appends the returned record at the
end of the caller's list and leaves every other subject's list
unchanged. -/
theorem createOrder_success_appends
    (payload : Option Payload) (order : Option OrderBody)
    (nowEpoch : Int) (freshId : String) (nowInstant : Int)
    (dateStr timeStr : String) (cache : OrdersByUser)
    (p : Payload) (sub : String) (r : OrderRecord)
    (hp : payload = some p) (hsub : p.sub = some sub)
    (h : (createOrder payload order nowEpoch freshId nowInstant dateStr
        timeStr cache).1 = .ok r) :
    (createOrder payload order nowEpoch freshId nowInstant dateStr timeStr
        cache).2 sub = cache sub ++ [r]
    ∧ ∀ s, s ≠ sub → (createOrder payload order nowEpoch freshId nowInstant
        dateStr timeStr cache).2 s = cache s := by
  subst hp
  cases order with
  | none =>
    simp only [createOrder, hsub] at h
    split_ifs at h
  | some ob =>
    cases hi : ob.items with
    | none =>
      simp only [createOrder, hsub, hi] at h
      split_ifs at h
    | some items =>
      simp only [createOrder, hsub, hi] at h ⊢
      split_ifs at h ⊢
      injection h with h'
      subst h'
      exact ⟨by simp, fun s hne => by simp [hne]⟩

/-- C9 witness: creating an order for `u1` on an empty cache stores
exactly the one returned record under `u1`. -/
theorem createOrder_success_appends_witness :
    (createOrder (some ⟨some "u1", some 200, some ["create:orders"], some true⟩)
        (some ⟨some [⟨"Margherita", 2⟩]⟩) 100 "id1" 5000 "d" "t"
        (fun _ => [])).2 "u1"
      = (fun _ => ([] : List OrderRecord)) "u1"
          ++ [⟨"id1", 5000, "d", "t", [⟨"Margherita", 2⟩]⟩] :=
  (createOrder_success_appends
    (some ⟨some "u1", some 200, some ["create:orders"], some true⟩)
    (some ⟨some [⟨"Margherita", 2⟩]⟩) 100 "id1" 5000 "d" "t" (fun _ => [])
    ⟨some "u1", some 200, some ["create:orders"], some true⟩ "u1"
    ⟨"id1", 5000, "d", "t", [⟨"Margherita", 2⟩]⟩ rfl rfl rfl).1

/-- C10: an absent `exp` claim is never treated as expired — the
comparison `undefined < nowEpoch` is false, so `createOrder` behaves
exactly as with an unexpired token, and its result is never the
token-expired error. -/
theorem createOrder_missing_expiry_ignored
    (sub : Option String) (perms : Option (List String)) (ev : Option Bool)
    (order : Option OrderBody) (nowEpoch : Int) (freshId : String)
    (nowInstant : Int) (dateStr timeStr : String) (cache : OrdersByUser) :
    createOrder (some ⟨sub, none, perms, ev⟩) order nowEpoch freshId
        nowInstant dateStr timeStr cache
      = createOrder (some ⟨sub, some (nowEpoch + 1), perms, ev⟩) order
          nowEpoch freshId nowInstant dateStr timeStr cache
    ∧ (createOrder (some ⟨sub, none, perms, ev⟩) order nowEpoch freshId
        nowInstant dateStr timeStr cache).1 ≠ .error errExpired := by
  have hlt : jsLt (some (nowEpoch + 1)) nowEpoch = false := by
    simp only [jsLt, decide_eq_false_iff_not]
    omega
  constructor
  · cases sub with
    | none => rfl
    | some s => simp [createOrder, jsLt, hlt]
  · rw [createOrder_validation_spec]
    simp only [validationSequence, firstFailing, claimsPresentC, subjectOkC,
      notExpiredC, permissionOkC, emailOkC, itemsArrayC, jsLt,
      Option.isSome_some, Bool.not_false, if_true]
    split_ifs <;>
      simp [errMissingToken, errMissingSub, errExpired, errNoPermission,
        errEmailNotVerified, errBadItems]

/-- C8 counterexample: a malformed 200 response is NOT swallowed.  With
valid claims, a delivered `order_history` that is a truthy non-array
(so `auth0Orders.forEach` throws), or an array containing a `null`
entry (so `order.id` throws), escapes the inner catch and the read
fails with HTTP 500 instead of returning the local records. -/
theorem listOrders_malformed_mirror_counterexample :
    listOrders (some ⟨some "u1", none, none, none⟩) (fun _ => [])
        (.ok .nonArray)
      = .error errInternalMirror
    ∧ listOrders (some ⟨some "u1", none, none, none⟩) (fun _ => [])
        (.ok (.array [none]))
      = .error errInternalMirror
    ∧ errInternalMirror.status = 500 :=
  ⟨rfl, rfl, rfl⟩

/-- C8 (amended): a failure of the fetch call itself (rejected token
exchange or GET — what the inner `try/catch` covers), or a delivered
response with no usable `order_history`, is swallowed: `listOrders`
behaves exactly as with an empty mirrored set and returns the subject's
local records as a success.  But a delivered `order_history` that is a
truthy non-array, or an array containing a `null` entry, throws in the
merge loop outside the inner catch and surfaces as a 500 error. -/
theorem listOrders_mirror_failure_isolated
    (p : Payload) (sub : String) (cache : OrdersByUser) (err : String)
    (hsub : p.sub = some sub) (hne : sub ≠ "") :
    listOrders (some p) cache (.error err)
        = .ok (displayPipeline (mergedOrders ((cache sub).map localToMerged) []))
    ∧ listOrders (some p) cache (.ok .absent)
        = .ok (displayPipeline (mergedOrders ((cache sub).map localToMerged) []))
    ∧ listOrders (some p) cache (.ok .nonArray) = .error errInternalMirror
    ∧ ∀ l : List (Option MirroredEntry), none ∈ l →
        listOrders (some p) cache (.ok (.array l)) = .error errInternalMirror := by
  refine ⟨?_, ?_, ?_, ?_⟩
  · simp [listOrders, hsub, hne]
  · simp [listOrders, hsub, hne]
  · simp [listOrders, hsub, hne]
  · intro l hl
    simp [listOrders, hsub, hne, hl]

/-- C8 witness: with one local record for `u1`, a failing mirror fetch
still succeeds with that record, while a delivered `[null]` history
fails with the 500 error. -/
theorem listOrders_mirror_failure_isolated_witness :
    (⟨some "u1", none, none, none⟩ : Payload).sub = some "u1" ∧
    listOrders (some ⟨some "u1", none, none, none⟩)
        (fun _ => [⟨"a", 3, "d", "t", [⟨"Margherita", 2⟩]⟩]) (.error "boom")
      = .ok (displayPipeline
          (mergedOrders
            (((fun _ => [⟨"a", 3, "d", "t", [⟨"Margherita", 2⟩]⟩] :
                OrdersByUser) "u1").map localToMerged) []))
    ∧ listOrders (some ⟨some "u1", none, none, none⟩)
        (fun _ => [⟨"a", 3, "d", "t", [⟨"Margherita", 2⟩]⟩])
        (.ok (.array [none]))
      = .error errInternalMirror :=
  ⟨rfl,
   (listOrders_mirror_failure_isolated ⟨some "u1", none, none, none⟩ "u1"
      (fun _ => [⟨"a", 3, "d", "t", [⟨"Margherita", 2⟩]⟩]) "boom" rfl
      (by decide)).1,
   (listOrders_mirror_failure_isolated ⟨some "u1", none, none, none⟩ "u1"
      (fun _ => [⟨"a", 3, "d", "t", [⟨"Margherita", 2⟩]⟩]) "boom" rfl
      (by decide)).2.2.2 [none] (by decide)⟩

/-- One step of the merge loop: `foldl` over a cons. -/
theorem mergedOrders_cons (acc : List MergedOrder) (e : MirroredEntry)
    (rest : List MirroredEntry) :
    mergedOrders acc (e :: rest)
      = mergedOrders
          (if acc.any (fun m => decide (m.id = (normalizedOrder e).id))
           then acc else acc ++ [normalizedOrder e]) rest := by
  simp only [mergedOrders, List.foldl_cons]

/-- In a list with pairwise-distinct `id`s, a member's `id` is counted
exactly once. -/
theorem countP_id_eq_one {l : List MergedOrder} {L : MergedOrder}
    (hp : l.Pairwise (fun a b => a.id ≠ b.id)) (hL : L ∈ l) :
    l.countP (fun o => decide (o.id = L.id)) = 1 := by
  induction l with
  | nil => cases hL
  | cons x t ih =>
    rw [List.pairwise_cons] at hp
    rcases List.mem_cons.mp hL with rfl | hLt
    · have ht : t.countP (fun o => decide (o.id = L.id)) = 0 :=
        List.countP_eq_zero.mpr (fun o ho => by
          simp only [decide_eq_true_eq]
          exact fun hEq => hp.1 o ho hEq.symm)
      rw [List.countP_cons, ht]
      simp
    · have hx : ¬ (x.id = L.id) := fun hEq => hp.1 L hLt hEq
      rw [List.countP_cons, ih hp.2 hLt]
      simp [hx]

/-- In a list with pairwise-distinct `id`s, two members with the same
`id` coincide. -/
theorem mem_id_unique {l : List MergedOrder} {L o : MergedOrder}
    (hp : l.Pairwise (fun a b => a.id ≠ b.id)) (hL : L ∈ l) (ho : o ∈ l)
    (heq : o.id = L.id) : o = L := by
  induction l with
  | nil => cases hL
  | cons x t ih =>
    rw [List.pairwise_cons] at hp
    rcases List.mem_cons.mp hL with rfl | hLt <;>
      rcases List.mem_cons.mp ho with h | hot
    · exact h
    · exact absurd heq.symm (hp.1 o hot)
    · exact absurd (h ▸ heq) (hp.1 L hLt)
    · exact ih hp.2 hLt hot

/-- Invariant of the merge loop: if the accumulator counts a given `id`
exactly once, and every accumulator member carrying it equals `L`, then
both facts survive the whole mirrored walk. -/
theorem mergedOrders_id_invariant (i : Option String) (L : MergedOrder) :
    ∀ (auth0 : List MirroredEntry) (acc : List MergedOrder),
      acc.countP (fun o => decide (o.id = i)) = 1 →
      (∀ o ∈ acc, o.id = i → o = L) →
      (mergedOrders acc auth0).countP (fun o => decide (o.id = i)) = 1
      ∧ ∀ o ∈ mergedOrders acc auth0, o.id = i → o = L := by
  intro auth0
  induction auth0 with
  | nil => exact fun acc h1 h2 => ⟨h1, h2⟩
  | cons e rest ih =>
    intro acc h1 h2
    rw [mergedOrders_cons]
    by_cases hany : acc.any (fun m => decide (m.id = (normalizedOrder e).id)) = true
    · rw [if_pos hany]
      exact ih acc h1 h2
    · rw [if_neg hany]
      have hne : ¬ ((normalizedOrder e).id = i) := by
        intro hid
        obtain ⟨o, ho, hoi⟩ := List.countP_pos_iff.mp (by rw [h1]; norm_num)
        simp only [decide_eq_true_eq] at hoi
        have := List.any_eq_false.mp (Bool.not_eq_true _ ▸ hany) o ho
        simp only [decide_eq_true_eq] at this
        exact this (hoi.trans hid.symm)
      apply ih
      · rw [List.countP_append, h1]
        simp [hne]
      · intro o ho hoi
        rcases List.mem_append.mp ho with hmem | hmem
        · exact h2 o hmem hoi
        · rw [List.mem_singleton] at hmem
          exact absurd (hmem ▸ hoi) hne

/-- C2 counterexample: with two local records sharing the id `dup` and a
mirrored entry carrying that same id, the merged result contains two
entries for that id, not exactly one — the claim fails as universally
stated over every local record list. -/
theorem mergedOrders_duplicate_local_ids_counterexample :
    (normalizedOrder ⟨some "dup", none, 5, some "d", some "t",
        some [⟨"Margherita", 2⟩]⟩).id
      = (⟨some "dup", 5, some "d", some "t",
          some [⟨"Margherita", 2⟩]⟩ : MergedOrder).id
    ∧ (mergedOrders
        [⟨some "dup", 5, some "d", some "t", some [⟨"Margherita", 2⟩]⟩,
         ⟨some "dup", 3, some "d2", some "t2", some [⟨"Buffalo", 1⟩]⟩]
        [⟨some "dup", none, 5, some "d", some "t",
          some [⟨"Margherita", 2⟩]⟩]).countP
          (fun o => decide (o.id = some "dup")) ≠ 1 := by
  constructor
  · rfl
  · decide

/-- C2 (amended): provided the local records have pairwise-distinct
`id`s, a mirrored entry sharing (after `id`/`order_id` coalescing) an
`id` with a local record yields exactly one merged entry for that `id`,
and every merged entry carrying it is the local record itself. -/
theorem mergedOrders_local_precedence
    (locals : List MergedOrder) (auth0 : List MirroredEntry)
    (hids : locals.Pairwise (fun a b => a.id ≠ b.id))
    (e : MirroredEntry) (_he : e ∈ auth0) (L : MergedOrder) (hL : L ∈ locals)
    (_hshare : (normalizedOrder e).id = L.id) :
    (mergedOrders locals auth0).countP (fun o => decide (o.id = L.id)) = 1
    ∧ ∀ o ∈ mergedOrders locals auth0, o.id = L.id → o = L :=
  mergedOrders_id_invariant L.id L auth0 locals (countP_id_eq_one hids hL)
    (fun _ ho heq => mem_id_unique hids hL ho heq)

/-- C2 witness: one local record, one mirrored entry under `order_id`
with the same identifier — the merge keeps exactly the local record. -/
theorem mergedOrders_local_precedence_witness :
    ([⟨some "x", 9, some "d", some "t", some [⟨"Margherita", 2⟩]⟩] :
        List MergedOrder).Pairwise (fun a b => a.id ≠ b.id)
    ∧ (mergedOrders
        [⟨some "x", 9, some "d", some "t", some [⟨"Margherita", 2⟩]⟩]
        [⟨none, some "x", 1, none, none, some [⟨"Buffalo", 1⟩]⟩]).countP
        (fun o => decide (o.id
          = (⟨some "x", 9, some "d", some "t",
              some [⟨"Margherita", 2⟩]⟩ : MergedOrder).id)) = 1 :=
  ⟨by decide,
   (mergedOrders_local_precedence
      [⟨some "x", 9, some "d", some "t", some [⟨"Margherita", 2⟩]⟩]
      [⟨none, some "x", 1, none, none, some [⟨"Buffalo", 1⟩]⟩]
      (by decide)
      ⟨none, some "x", 1, none, none, some [⟨"Buffalo", 1⟩]⟩
      (List.mem_singleton.mpr rfl)
      ⟨some "x", 9, some "d", some "t", some [⟨"Margherita", 2⟩]⟩
      (List.mem_singleton.mpr rfl) (by decide)).1⟩

/-- The descending comparator is transitive. -/
theorem descLE_trans : ∀ (a b c : MergedOrder),
    descLE a b → descLE b c → descLE a c := by
  intro a b c hab hbc
  simp only [descLE, decide_eq_true_eq] at hab hbc ⊢
  omega

/-- The descending comparator is total. -/
theorem descLE_total : ∀ (a b : MergedOrder), descLE a b || descLE b a := by
  intro a b
  simp only [descLE]
  rcases le_total b.created_at a.created_at with h | h <;> simp [h]

/-- A list split into an all-`q` part followed by an all-`not-q` part
admits only one such split. -/
theorem pred_split_unique {α : Type} (q : α → Bool) :
    ∀ {x₁ : List α} {x₂ y₁ y₂ : List α}, x₁ ++ x₂ = y₁ ++ y₂ →
      (∀ b ∈ x₁, q b = true) → (∀ b ∈ x₂, q b = false) →
      (∀ b ∈ y₁, q b = true) → (∀ b ∈ y₂, q b = false) →
      x₁ = y₁ ∧ x₂ = y₂ := by
  intro x₁
  induction x₁ with
  | nil =>
    intro x₂ y₁ y₂ h _ hx2 hy1 _
    cases y₁ with
    | nil => exact ⟨rfl, by simpa using h⟩
    | cons c t =>
      exfalso
      rw [List.nil_append] at h
      have hc : c ∈ x₂ := h ▸ List.mem_cons_self c (t ++ y₂)
      have h1 := hy1 c (List.mem_cons_self c t)
      have h2 := hx2 c hc
      rw [h1] at h2
      cases h2
  | cons a t ih =>
    intro x₂ y₁ y₂ h hx1 hx2 hy1 hy2
    cases y₁ with
    | nil =>
      exfalso
      rw [List.nil_append] at h
      have ha : a ∈ y₂ := h ▸ List.mem_cons_self a (t ++ x₂)
      have h1 := hx1 a (List.mem_cons_self a t)
      have h2 := hy2 a ha
      rw [h1] at h2
      cases h2
    | cons c u =>
      simp only [List.cons_append, List.cons.injEq] at h
      obtain ⟨rfl, h'⟩ := h
      obtain ⟨e1, e2⟩ := ih h'
        (fun b hb => hx1 b (List.mem_cons_of_mem _ hb)) hx2
        (fun b hb => hy1 b (List.mem_cons_of_mem _ hb)) hy2
      exact ⟨by rw [e1], e2⟩

/-- Filtering commutes with the stable descending sort: filtering after
sorting gives the same list as sorting the filtered input.  This is the
stability property the pipeline relies on for `order_number` assignment. -/
theorem filter_mergeSort_comm (p : MergedOrder → Bool) :
    ∀ l : List MergedOrder,
      (l.mergeSort descLE).filter p = (l.filter p).mergeSort descLE := by
  intro l
  induction l with
  | nil => simp
  | cons a l ih =>
    obtain ⟨l₁, l₂, h₁, h₂, h₃⟩ :=
      List.mergeSort_cons descLE_trans descLE_total a l
    have hs : (l₁ ++ a :: l₂).Pairwise (fun x y => descLE x y) :=
      h₁ ▸ List.sorted_mergeSort descLE_trans descLE_total (a :: l)
    have hl₂ : ∀ b ∈ l₂, descLE a b = true := fun b hb =>
      List.rel_of_pairwise_cons (List.pairwise_append.mp hs).2.1 hb
    by_cases hpa : p a = true
    · obtain ⟨m₁, m₂, g₁, g₂, g₃⟩ :=
        List.mergeSort_cons descLE_trans descLE_total a (l.filter p)
      have gs : (m₁ ++ a :: m₂).Pairwise (fun x y => descLE x y) :=
        g₁ ▸ List.sorted_mergeSort descLE_trans descLE_total (a :: l.filter p)
      have hm₂ : ∀ b ∈ m₂, descLE a b = true := fun b hb =>
        List.rel_of_pairwise_cons (List.pairwise_append.mp gs).2.1 hb
      have heq : l₁.filter p ++ l₂.filter p = m₁ ++ m₂ := by
        rw [← List.filter_append, ← h₂, ih, g₂]
      obtain ⟨e₁, e₂⟩ := pred_split_unique (fun b => !(descLE a b)) heq
        (fun b hb => h₃ b (List.mem_of_mem_filter hb))
        (fun b hb => by
          show (!(descLE a b)) = false
          rw [hl₂ b (List.mem_of_mem_filter hb)]
          rfl)
        (fun b hb => g₃ b hb)
        (fun b hb => by
          show (!(descLE a b)) = false
          rw [hm₂ b hb]
          rfl)
      calc (List.mergeSort (a :: l) descLE).filter p
          = (l₁ ++ a :: l₂).filter p := by rw [h₁]
        _ = l₁.filter p ++ a :: l₂.filter p := by
            simp [List.filter_append, List.filter_cons, hpa]
        _ = m₁ ++ a :: m₂ := by rw [e₁, e₂]
        _ = ((a :: l).filter p).mergeSort descLE := by
            rw [List.filter_cons_of_pos hpa, g₁]
    · have hpa' : p a = false := Bool.not_eq_true _ ▸ hpa
      calc (List.mergeSort (a :: l) descLE).filter p
          = (l₁ ++ a :: l₂).filter p := by rw [h₁]
        _ = l₁.filter p ++ l₂.filter p := by
            simp [List.filter_append, List.filter_cons, hpa']
        _ = (l₁ ++ l₂).filter p := (List.filter_append _ _).symm
        _ = (List.mergeSort l descLE).filter p := by rw [h₂]
        _ = (l.filter p).mergeSort descLE := ih
        _ = ((a :: l).filter p).mergeSort descLE := by
            rw [List.filter_cons_of_neg (by simp [hpa'])]

/-- Numbering keeps the records: projecting the numbered list back to
its records recovers the input list. -/
theorem ordersWithNumbers_map_order (l : List MergedOrder) :
    (ordersWithNumbers l).map DisplayOrder.order = l := by
  simp only [ordersWithNumbers, List.map_reverse, List.map_map]
  have h : (DisplayOrder.order ∘ fun p : Nat × MergedOrder =>
      (⟨p.2, p.1 + 1⟩ : DisplayOrder)) = Prod.snd := rfl
  rw [h, List.enum_map_snd, List.reverse_reverse]

/-- Numbering preserves length. -/
theorem ordersWithNumbers_length (l : List MergedOrder) :
    (ordersWithNumbers l).length = l.length := by
  simp [ordersWithNumbers]

/-- The assigned numbers are exactly `N, N-1, ..., 1` front to back. -/
theorem ordersWithNumbers_map_num (l : List MergedOrder) :
    (ordersWithNumbers l).map DisplayOrder.order_number
      = (List.range' 1 l.length).reverse := by
  simp only [ordersWithNumbers, List.map_reverse, List.map_map]
  have h : (DisplayOrder.order_number ∘ fun p : Nat × MergedOrder =>
      (⟨p.2, p.1 + 1⟩ : DisplayOrder)) = fun p : Nat × MergedOrder => p.1 + 1 :=
    rfl
  rw [h]
  congr 1
  have h2 : (fun p : Nat × MergedOrder => p.1 + 1)
      = (fun n => n + 1) ∘ Prod.fst := rfl
  rw [h2, ← List.map_map, List.enum_map_fst, List.length_reverse]
  have h3 : List.range' 1 l.length = (List.range l.length).map (1 + ·) :=
    List.range'_eq_map_range 1 l.length
  rw [h3]
  exact List.map_congr_left (fun a _ => Nat.add_comm a 1)

/-- The number at position `i` of the numbered list is `N - i`. -/
theorem ordersWithNumbers_num_get (l : List MergedOrder) (i : Nat)
    (hi : i < (ordersWithNumbers l).length) :
    ((ordersWithNumbers l).get ⟨i, hi⟩).order_number = l.length - i := by
  have hi' : i < l.length := by
    rw [ordersWithNumbers_length] at hi
    exact hi
  simp only [ordersWithNumbers, List.get_eq_getElem, List.getElem_reverse,
    List.getElem_map, List.getElem_enum, List.length_reverse,
    List.length_map, List.enum_length]
  omega

/-- C3: no record with a missing or empty items array appears in the
pipeline output, and removing such a record from the merged list leaves
the output — `order_number`s included — unchanged. -/
theorem displayPipeline_filter_spec :
    (∀ m : List MergedOrder, ∀ d ∈ displayPipeline m,
        hasItems d.order = true)
    ∧ ∀ (a b : List MergedOrder) (r : MergedOrder), hasItems r = false →
        displayPipeline (a ++ r :: b) = displayPipeline (a ++ b) := by
  constructor
  · intro m d hd
    have hmem : d.order ∈ (displayPipeline m).map DisplayOrder.order :=
      List.mem_map_of_mem _ hd
    rw [displayPipeline, ordersWithNumbers_map_order] at hmem
    exact List.of_mem_filter hmem
  · intro a b r hr
    unfold displayPipeline filteredOrders sortedOrders
    rw [filter_mergeSort_comm, filter_mergeSort_comm]
    have h : (a ++ r :: b).filter hasItems = (a ++ b).filter hasItems := by
      simp [List.filter_append, List.filter_cons, hr]
    rw [h]

/-- C3 witness: dropping a concrete itemless record from a two-record
merged list leaves the output identical. -/
theorem displayPipeline_filter_spec_witness :
    hasItems ⟨some "bad", 7, none, none, none⟩ = false
    ∧ displayPipeline
        [⟨some "g", 1, none, none, some [⟨"Margherita", 2⟩]⟩,
         ⟨some "bad", 7, none, none, none⟩]
      = displayPipeline [⟨some "g", 1, none, none, some [⟨"Margherita", 2⟩]⟩] :=
  ⟨rfl, displayPipeline_filter_spec.2
    [⟨some "g", 1, none, none, some [⟨"Margherita", 2⟩]⟩] []
    ⟨some "bad", 7, none, none, none⟩ rfl⟩

/-- The filtered, sorted working list is sorted descending. -/
theorem filteredOrders_sorted (m : List MergedOrder) :
    (filteredOrders (sortedOrders m)).Pairwise
      (fun x y => y.created_at ≤ x.created_at) := by
  have hs := List.sorted_mergeSort descLE_trans descLE_total m
  have hf : (filteredOrders (sortedOrders m)).Pairwise
      (fun x y => descLE x y = true) := hs.filter hasItems
  exact hf.imp (fun h => by simpa [descLE] using h)

/-- The pipeline output is sorted descending by `created_at`. -/
theorem displayPipeline_sorted (m : List MergedOrder) :
    (displayPipeline m).Pairwise
      (fun x y => y.order.created_at ≤ x.order.created_at) := by
  have hmap : ((displayPipeline m).map DisplayOrder.order).Pairwise
      (fun x y => y.created_at ≤ x.created_at) := by
    rw [displayPipeline, ordersWithNumbers_map_order]
    exact filteredOrders_sorted m
  exact List.pairwise_map.mp hmap

/-- With pairwise-distinct timestamps on the filtered merged records,
the pipeline output is strictly descending. -/
theorem displayPipeline_strict (m : List MergedOrder)
    (hdist : (m.filter hasItems).Pairwise
      (fun x y => x.created_at ≠ y.created_at)) :
    (displayPipeline m).Pairwise
      (fun x y => y.order.created_at < x.order.created_at) := by
  have hperm : List.Perm (filteredOrders (sortedOrders m))
      (m.filter hasItems) := by
    unfold filteredOrders sortedOrders
    exact (List.mergeSort_perm m descLE).filter hasItems
  have hdist' : (filteredOrders (sortedOrders m)).Pairwise
      (fun x y => x.created_at ≠ y.created_at) :=
    (hperm.pairwise_iff (fun h => Ne.symm h)).mpr hdist
  have hstrict : (filteredOrders (sortedOrders m)).Pairwise
      (fun x y => y.created_at < x.created_at) :=
    ((filteredOrders_sorted m).and hdist').imp
      (fun h => lt_of_le_of_ne h.1 (fun hEq => h.2 hEq.symm))
  have hmap : ((displayPipeline m).map DisplayOrder.order).Pairwise
      (fun x y => y.created_at < x.created_at) := by
    rw [displayPipeline, ordersWithNumbers_map_order]
    exact hstrict
  exact List.pairwise_map.mp hmap

/-- C1: the pipeline output is sorted descending by `created_at`; when
the filtered merged records have pairwise-distinct timestamps, the
`order_number` fields read `N, N-1, ..., 1` front to back (so they are
exactly the set `{1, ..., N}`), the record numbered `1` has the oldest
`created_at`, and the record numbered `N` the newest. -/
theorem listOrders_sorted_numbered (locals : List MergedOrder)
    (auth0 : List MirroredEntry) :
    (displayPipeline (mergedOrders locals auth0)).Pairwise
        (fun x y => y.order.created_at ≤ x.order.created_at)
    ∧ (((mergedOrders locals auth0).filter hasItems).Pairwise
          (fun x y => x.created_at ≠ y.created_at) →
        (displayPipeline (mergedOrders locals auth0)).map
            DisplayOrder.order_number
          = (List.range' 1
              (displayPipeline (mergedOrders locals auth0)).length).reverse
        ∧ ∀ d ∈ displayPipeline (mergedOrders locals auth0),
            (d.order_number = 1 →
              ∀ e ∈ displayPipeline (mergedOrders locals auth0),
                d.order.created_at ≤ e.order.created_at)
            ∧ (d.order_number
                  = (displayPipeline (mergedOrders locals auth0)).length →
              ∀ e ∈ displayPipeline (mergedOrders locals auth0),
                e.order.created_at ≤ d.order.created_at)) := by
  refine ⟨displayPipeline_sorted _, fun hdist => ⟨?_, ?_⟩⟩
  · rw [displayPipeline, ordersWithNumbers_map_num, ordersWithNumbers_length]
  · have hstrict := displayPipeline_strict (mergedOrders locals auth0) hdist
    simp only [displayPipeline] at hstrict ⊢
    have hL := ordersWithNumbers_length
      (filteredOrders (sortedOrders (mergedOrders locals auth0)))
    have hpair := List.pairwise_iff_getElem.mp hstrict
    intro d hd
    obtain ⟨i, hi, rfl⟩ := List.getElem_of_mem hd
    have hni := ordersWithNumbers_num_get
      (filteredOrders (sortedOrders (mergedOrders locals auth0))) i hi
    rw [List.get_eq_getElem] at hni
    constructor
    · intro h1 e he
      obtain ⟨j, hj, rfl⟩ := List.getElem_of_mem he
      rcases Nat.lt_trichotomy j i with hji | hji | hji
      · exact le_of_lt (hpair j i hj hi hji)
      · subst hji
        exact le_refl _
      · exfalso
        have hb : (filteredOrders (sortedOrders
            (mergedOrders locals auth0))).length - i = 1 := by
          rw [← hni, h1]
        have hi2 := hL ▸ hi
        have hj2 := hL ▸ hj
        omega
    · intro hN e he
      obtain ⟨j, hj, rfl⟩ := List.getElem_of_mem he
      rcases Nat.lt_trichotomy i j with hij | hij | hij
      · exact le_of_lt (hpair i j hi hj hij)
      · subst hij
        exact le_refl _
      · exfalso
        have hb : (filteredOrders (sortedOrders
            (mergedOrders locals auth0))).length - i
            = (ordersWithNumbers (filteredOrders (sortedOrders
                (mergedOrders locals auth0)))).length := by
          rw [← hni, hN]
        have hi2 := hL ▸ hi
        have hj2 := hL ▸ hj
        omega

/-- C1 witness: two records with distinct timestamps come back sorted
newest-first and numbered `2, 1`. -/
theorem listOrders_sorted_numbered_witness :
    (displayPipeline (mergedOrders
        [⟨some "a", 1, none, none, some [⟨"Margherita", 2⟩]⟩,
         ⟨some "b", 5, none, none, some [⟨"Buffalo", 1⟩]⟩] [])).map
        DisplayOrder.order_number
      = (List.range' 1
          (displayPipeline (mergedOrders
            [⟨some "a", 1, none, none, some [⟨"Margherita", 2⟩]⟩,
             ⟨some "b", 5, none, none, some [⟨"Buffalo", 1⟩]⟩] [])).length).reverse :=
  ((listOrders_sorted_numbered
      [⟨some "a", 1, none, none, some [⟨"Margherita", 2⟩]⟩,
       ⟨some "b", 5, none, none, some [⟨"Buffalo", 1⟩]⟩] []).2
    (by decide)).1

/-- C4 witness: the first-failure characterization at a concrete call
with no token. -/
theorem createOrder_first_failure_witness :
    (createOrder none none 0 "i" 0 "d" "t" (fun _ => [])).1
      = match firstFailing (validationSequence none none 0) with
        | some e => Except.error e
        | none => Except.ok ⟨"i", 0, "d", "t", []⟩ :=
  createOrder_first_failure none none 0 "i" 0 "d" "t" (fun _ => [])

/-- C10 witness: a concrete payload with no `exp` claim behaves like one
expiring strictly after the current time and is not rejected as
expired. -/
theorem createOrder_missing_expiry_ignored_witness :
    createOrder (some ⟨some "u1", none, some ["create:orders"], some true⟩)
        none 7 "i" 0 "d" "t" (fun _ => [])
      = createOrder
          (some ⟨some "u1", some 8, some ["create:orders"], some true⟩)
          none 7 "i" 0 "d" "t" (fun _ => [])
    ∧ (createOrder (some ⟨some "u1", none, some ["create:orders"], some true⟩)
        none 7 "i" 0 "d" "t" (fun _ => [])).1 ≠ .error errExpired :=
  createOrder_missing_expiry_ignored (some "u1") (some ["create:orders"])
    (some true) none 7 "i" 0 "d" "t" (fun _ => [])
